import Mathlib

/-!
Verification of the directory-backed content storage
(examples/implementation/FileContentStorage.ts).

The filesystem is modelled relative to the storage root (the
`contentPath` the class is constructed with): a path is a list of
segments, a state is a list of existing directories plus an
association list of files.  `path.join` in Node normalizes the
joined path (resolving "." and ".." segments), which `normSegs`
mirrors.  Faults of the underlying filesystem calls inside
`createContent` are injected through explicit flags, one per call
in the try block plus one for the `remove` in the catch block.
-/

deriving instance DecidableEq for Except

namespace CStore

abbrev Path := List String

/-- Node `path.join`/normalize on a segment list: drop "." segments,
let ".." cancel the preceding segment when there is one that is not
itself "..", and keep unresolvable ".." segments (paths climbing
above the root). -/
def normAux : List String → List String → List String
  | acc, [] => acc.reverse
  | acc, s :: rest =>
    if s = "." then normAux acc rest
    else if s = ".." then
      match acc with
      | [] => normAux [".."] rest
      | t :: ts => if t = ".." then normAux (".." :: ".." :: ts) rest else normAux ts rest
    else normAux (s :: acc) rest

def normSegs (p : List String) : List String := normAux [] p

/-- Bool prefix test on segment lists. -/
def isPref : Path → Path → Bool
  | [], _ => true
  | _ :: _, [] => false
  | a :: as, b :: bs => decide (a = b) && isPref as bs

/-- Contents of a file: an opaque serialized JSON document (written by
`writeJSON`) or a byte blob (written through a stream copy). -/
inductive FileVal
  | doc (d : Nat)
  | blob (bs : List Nat)
deriving DecidableEq, Repr

/-- Filesystem state under the storage root. -/
structure FS where
  dirs : List Path
  files : List (Path × FileVal)
deriving DecidableEq, Repr

/-- `fsExtra.pathExists`: the path names an existing directory or file. -/
def pathExists (fs : FS) (p : Path) : Bool :=
  fs.dirs.any (fun d => decide (d = p)) || fs.files.any (fun e => decide (e.1 = p))

/-- All nonempty prefixes of a path, shortest first. -/
def ancestors (p : Path) : List Path :=
  (List.range p.length).map (fun k => p.take (k + 1))

/-- `fsExtra.ensureDir`: creates the directory and any missing parents. -/
def ensureDir (fs : FS) (p : Path) : FS :=
  ⟨ancestors p ++ fs.dirs, fs.files⟩

/-- Writing a file (either `writeJSON` or a write stream fed by
`promisepipe`): overwrites any existing file at that path. -/
def writeFile (fs : FS) (p : Path) (v : FileVal) : FS :=
  ⟨fs.dirs, (p, v) :: fs.files.filter (fun e => !(decide (e.1 = p)))⟩

/-- The file stored at a path, if any. -/
def fileAt (fs : FS) (p : Path) : Option FileVal :=
  (fs.files.find? (fun e => decide (e.1 = p))).map Prod.snd

/-- `fsExtra.remove`: deletes the path and everything below it. -/
def removeRec (fs : FS) (p : Path) : FS :=
  ⟨fs.dirs.filter fun d => !(isPref p d),
   fs.files.filter fun e => !(isPref p e.1)⟩

/-- Errors surfaced by the storage operations.  `creation op` is the
wrapped "Could not create content" error recording which call in the
try block failed; `ioFault op` is an unwrapped rejection of the
underlying filesystem call `op`. -/
inductive StorageError
  | notFound
  | idExhaustion
  | creation (op : String)
  | ioFault (op : String)
deriving DecidableEq, Repr


/-!
The operations of `FileContentStorage`, embedded one by one.  Content
ids are natural numbers (the class calls `id.toString()` everywhere);
opaque metadata and content documents are represented by `Nat` tags
wrapped in `FileVal.doc`; byte streams by the `List Nat` of bytes that
draining them yields.
-/

/-- `contentExists(contentId)`: checks `<root>/<id>`. -/
def contentExists (fs : FS) (id : Nat) : Bool :=
  pathExists fs [toString id]

/-- `addContentFile(id, filename, stream, user)`: fails when the id
subdirectory is missing, otherwise ensures the parent directory of
`join(root, id, "content", filename)` and pipes the stream into a
write stream at that joined (hence normalized) path. -/
def addContentFile (fs : FS) (id : Nat) (filename : List String) (data : List Nat) :
    FS × Except StorageError Unit :=
  if pathExists fs [toString id] then
    let full := normSegs (toString id :: "content" :: filename)
    (writeFile (ensureDir fs full.dropLast) full (.blob data), .ok ())
  else
    (fs, .error .notFound)

/-- `deleteContent(id, user)`: fails when the id subdirectory is
missing, otherwise removes it recursively. -/
def deleteContent (fs : FS) (id : Nat) : FS × Except StorageError Unit :=
  if pathExists fs [toString id] then
    (removeRec fs [toString id], .ok ())
  else
    (fs, .error .notFound)

/-- `getContentFileStream(id, filename, user)`: opens a read stream at
`join(root, id, filename)` with no validation of `filename`; draining
the stream yields the bytes there, or an error event when nothing is
stored at that path — modelled as the optional file value. -/
def getContentFileStream (fs : FS) (id : Nat) (filename : List String) : Option FileVal :=
  fileAt fs (normSegs (toString id :: filename))

/-- The basename filter of the glob pattern `**/*.*` with the default
`dot:false` option: every traversed segment must not begin with a dot,
and the basename must contain a dot. -/
def globOk (rel : Path) : Bool :=
  rel.all (fun s => !(s.data.head? = some '.' : Bool)) &&
    (match rel.getLast? with
     | some base => base.data.any (fun ch => decide (ch = '.'))
     | none => false)

/-- `getContentFiles(contentId, user)`: globs `**/*.*` under
`<root>/<id>/content` with `nodir: true`, ignoring the absolute path
of `content.json`, and maps results through `path.relative`. -/
def getContentFiles (fs : FS) (id : Nat) : List Path :=
  fs.files.filterMap fun e =>
    if isPref [toString id, "content"] e.1 = true ∧
        e.1 ≠ [toString id, "content", "content.json"] ∧ globOk (e.1.drop 2) = true
    then some (e.1.drop 2) else none

inductive Permission
  | Delete
  | Download
  | Edit
  | Embed
  | View
deriving DecidableEq, Repr

/-- `getUserPermissions(contentId, user)`: the constant full list. -/
def getUserPermissions (contentId : Nat) (user : Nat) : List Permission :=
  [.Delete, .Download, .Edit, .Embed, .View]

/-- Injected rejections for the five filesystem calls `createContent`
makes: the two `ensureDir`, the two `writeJSON`, and the `remove` of
the catch block. -/
structure CreateFaults where
  fDir1 : Bool
  fDir2 : Bool
  fMeta : Bool
  fContent : Bool
  fRemove : Bool
deriving DecidableEq, Repr

def noFaults : CreateFaults := ⟨false, false, false, false, false⟩

/-- The catch block of `createContent`: `await fsExtra.remove(dir)`
followed by `throw new Error("Could not create content: " + msg)`.
When the `remove` itself rejects, its rejection propagates out of the
catch block unwrapped and the wrapping throw is never reached. -/
def rollbackAnd (fs : FS) (id : Nat) (f : CreateFaults) (op : String) :
    FS × Except StorageError Nat :=
  if f.fRemove then (fs, .error (.ioFault "remove"))
  else (removeRec fs [toString id], .error (.creation op))

/-- `createContent(metadata, content, user, id)` for a caller-supplied
id (the id-generation branch is `createContentId` below): ensure the
id directory and its `content` subdirectory, write `h5p.json`, write
`content/content.json`; on any rejection run the catch block. -/
def createContent (fs : FS) (id : Nat) (meta c : Nat) (f : CreateFaults) :
    FS × Except StorageError Nat :=
  if f.fDir1 then rollbackAnd fs id f "ensureDir id" else
  let fs1 := ensureDir fs [toString id]
  if f.fDir2 then rollbackAnd fs1 id f "ensureDir content" else
  let fs2 := ensureDir fs1 [toString id, "content"]
  if f.fMeta then rollbackAnd fs2 id f "writeJSON h5p.json" else
  let fs3 := writeFile fs2 [toString id, "h5p.json"] (.doc meta)
  if f.fContent then rollbackAnd fs3 id f "writeJSON content.json" else
  (writeFile fs3 [toString id, "content", "content.json"] (.doc c), .ok id)

/-- `getRandomInt(min, max)`: `Math.floor(r * (max - min + 1)) + min`
for a draw `r` of `Math.random()` (`Math.ceil` and `Math.floor` on the
integer bounds are the identity); the draw is modelled as a rational
in `[0, 1)`. -/
def getRandomInt (min max : ℤ) (r : ℚ) : ℤ :=
  ⌊r * ((max : ℚ) - (min : ℚ) + 1)⌋ + min

/-- The do-while loop of `createContentId`, with the remaining number
of permitted attempts as fuel; the second component of the result is
the final value of the `counter` variable, i.e. how many attempts were
made. -/
def tryIds (ex : ℤ → Bool) (gen : Nat → ℤ) : Nat → Nat → Except StorageError ℤ × Nat
  | counter, 0 => (.error .idExhaustion, counter)
  | counter, fuel + 1 =>
    let id := gen counter
    if ex id then tryIds ex gen (counter + 1) fuel else (.ok id, counter + 1)

/-- `createContentId()`: draw ids, checking `pathExists` for a clash,
up to 5 total attempts (`while (exists && counter < 5)`), then throw
when the last draw still clashed. -/
def createContentId (ex : ℤ → Bool) (gen : Nat → ℤ) : Except StorageError ℤ × Nat :=
  tryIds ex gen 0 5

/-- The existence check `createContentId` runs each draw against:
`fsExtra.pathExists(path.join(this.contentPath, id.toString()))`. -/
def idTaken (fs : FS) (i : ℤ) : Bool :=
  pathExists fs [toString i]

/-!
Concrete states for the scenario of the testable-properties section:
content id 42 created in an empty store, then a 10-byte file attached
under the relative path `images/a.png`.
-/

def emptyFS : FS := ⟨[], []⟩

def bytes10 : List Nat := [0, 1, 2, 3, 4, 5, 6, 7, 8, 9]

def c4Created : FS := (createContent emptyFS 42 7 8 noFaults).1

def c4Attached : FS := (addContentFile c4Created 42 ["images", "a.png"] bytes10).1

-- Basic lemmas about the primitives.

theorem isPref_refl (p : Path) : isPref p p = true := by
  induction p with
  | nil => rfl
  | cons a as ih => simp [isPref, ih]

theorem any_eq_filter_not_isPref (p : Path) (l : List Path) :
    (l.filter fun d => !(isPref p d)).any (fun d => decide (d = p)) = false := by
  induction l with
  | nil => rfl
  | cons d l ih =>
    by_cases h : isPref p d = true
    · simp [List.filter_cons, h, ih]
    · have hne : d ≠ p := by
        intro he; exact h (he ▸ isPref_refl p)
      simp [List.filter_cons, h, hne, ih]

theorem any_fst_eq_filter_not_isPref (p : Path) (l : List (Path × FileVal)) :
    (l.filter fun e => !(isPref p e.1)).any (fun e => decide (e.1 = p)) = false := by
  induction l with
  | nil => rfl
  | cons e l ih =>
    by_cases h : isPref p e.1 = true
    · simp [List.filter_cons, h, ih]
    · have hne : e.1 ≠ p := by
        intro he; exact h (he ▸ isPref_refl p)
      simp [List.filter_cons, h, hne, ih]

/-- After a recursive removal of `p`, `p` no longer exists. -/
theorem pathExists_removeRec_self (fs : FS) (p : Path) :
    pathExists (removeRec fs p) p = false := by
  simp only [pathExists, removeRec]
  rw [any_eq_filter_not_isPref, any_fst_eq_filter_not_isPref]
  rfl

theorem fileAt_writeFile_same (fs : FS) (p : Path) (v : FileVal) :
    fileAt (writeFile fs p v) p = some v := by
  simp [fileAt, writeFile, List.find?]

theorem find?_filter_ne (p q : Path) (hne : q ≠ p) (l : List (Path × FileVal)) :
    (l.filter fun e => !(decide (e.1 = p))).find? (fun e => decide (e.1 = q)) =
      l.find? (fun e => decide (e.1 = q)) := by
  induction l with
  | nil => rfl
  | cons e l ih =>
    by_cases h2 : e.1 = p
    · rw [List.filter_cons_of_neg (by simp [h2]),
        List.find?_cons_of_neg _ (by simp [h2]; exact fun hh => hne hh.symm), ih]
    · rw [List.filter_cons_of_pos (by simp [h2])]
      by_cases hq2 : e.1 = q
      · rw [List.find?_cons_of_pos _ (by simp [hq2]),
          List.find?_cons_of_pos _ (by simp [hq2])]
      · rw [List.find?_cons_of_neg _ (by simp [hq2]),
          List.find?_cons_of_neg _ (by simp [hq2]), ih]

theorem fileAt_writeFile_other (fs : FS) (p q : Path) (v : FileVal) (hne : q ≠ p) :
    fileAt (writeFile fs p v) q = fileAt fs q := by
  have hpq : ¬(p = q) := fun h => hne h.symm
  unfold fileAt writeFile
  rw [List.find?_cons_of_neg _ (by simp [hpq]), find?_filter_ne p q hne]

theorem fileAt_ensureDir (fs : FS) (p q : Path) :
    fileAt (ensureDir fs p) q = fileAt fs q := rfl

theorem ancestors_one (a : String) : ancestors [a] = [[a]] := rfl

theorem ancestors_two (a b : String) : ancestors [a, b] = [[a], [a, b]] := rfl

theorem isPref_two_iff (a b : String) (q : Path) :
    isPref [a, b] q = true ↔ ∃ t, q = a :: b :: t := by
  match q with
  | [] => simp [isPref]
  | [x] => simp [isPref]
  | x :: y :: ys =>
    simp only [isPref, Bool.and_eq_true, decide_eq_true_eq]
    constructor
    · rintro ⟨h1, h2, -⟩
      exact ⟨ys, by rw [h1, h2]⟩
    · rintro ⟨t, ht⟩
      injection ht with h1 ht
      injection ht with h2 ht
      exact ⟨h1.symm, h2.symm, trivial⟩

/-- A leading segment that is neither "." nor ".." is cancelled by an
immediately following "..". -/
theorem normSegs_cons_up (s : String) (hs1 : s ≠ ".") (hs2 : s ≠ "..") (q : List String) :
    normSegs (s :: ".." :: q) = normSegs q := by
  simp [normSegs, normAux, hs1, hs2]

/-- Two ".." segments after `s :: "content"` cancel both leading
segments, for `s` neither "." nor "..". -/
theorem normSegs_content_upup (s : String) (hs1 : s ≠ ".") (hs2 : s ≠ "..") (q : List String) :
    normSegs (s :: "content" :: ".." :: ".." :: q) = normSegs q := by
  simp [normSegs, normAux, hs1, hs2]

-- C9 ---------------------------------------------------------------

/-- C9: for every content id and user, `getUserPermissions` returns
the full permission set Delete, Download, Edit, Embed, View, and the
result does not depend on the id or the user. -/
theorem getUserPermissions_full (id u id2 u2 : Nat) :
    getUserPermissions id u = [.Delete, .Download, .Edit, .Embed, .View] ∧
    (∀ p : Permission, p ∈ getUserPermissions id u) ∧
    getUserPermissions id u = getUserPermissions id2 u2 := by
  refine ⟨rfl, ?_, rfl⟩
  intro p
  cases p <;> simp [getUserPermissions]

-- C6 ---------------------------------------------------------------

/-- C6: when the id subdirectory does not exist, `addContentFile`
fails with the not-found error and leaves the store unchanged, for
every filename and stream. -/
theorem addContentFile_notFound (fs : FS) (id : Nat) (fn : List String) (data : List Nat)
    (h : pathExists fs [toString id] = false) :
    addContentFile fs id fn data = (fs, .error .notFound) := by
  simp [addContentFile, h]

/-- C6 witness: attaching to id 5 in the empty store. -/
theorem addContentFile_notFound_witness :
    addContentFile emptyFS 5 ["a.png"] [1] = (emptyFS, .error .notFound) :=
  addContentFile_notFound emptyFS 5 ["a.png"] [1] (by decide)

-- C1 ---------------------------------------------------------------

/-- C1 counterexample: in a store holding ids 7 and 42, requesting
`../7/content/x.png` from id 42 resolves outside the id 42
subdirectory yet still yields a stream over the id 7 file, and
`addContentFile` with `../../evil.txt` writes a file at the storage
root, outside the id 42 subdirectory.  Nothing is rejected. -/
theorem pathTraversal_cex :
    getContentFileStream ⟨[["7"], ["7", "content"], ["42"], ["42", "content"]],
        [(["7", "content", "x.png"], .blob [9, 9, 9])]⟩ 42
        ["..", "7", "content", "x.png"] = some (.blob [9, 9, 9]) ∧
    isPref [toString 42] (normSegs (toString 42 :: ["..", "7", "content", "x.png"])) = false ∧
    (addContentFile ⟨[["7"], ["7", "content"], ["42"], ["42", "content"]],
        [(["7", "content", "x.png"], .blob [9, 9, 9])]⟩ 42
        ["..", "..", "evil.txt"] [1, 2]).2 = .ok () ∧
    fileAt (addContentFile ⟨[["7"], ["7", "content"], ["42"], ["42", "content"]],
        [(["7", "content", "x.png"], .blob [9, 9, 9])]⟩ 42
        ["..", "..", "evil.txt"] [1, 2]).1 ["evil.txt"] = some (.blob [1, 2]) ∧
    isPref [toString 42] ["evil.txt"] = false := by
  decide

/-- C1 amended: neither operation validates the relative path.  Every
file in the store, in particular any file outside the id subdirectory,
can be streamed through a `..`-leading path, and `addContentFile` with
two leading ".." segments writes outside the id subdirectory — the
stream is served from, and the write lands at, the bare normalized
join, wherever that resolves. -/
theorem noPathValidation (fs : FS) (id : Nat) (q : Path) (v : FileVal)
    (hid1 : toString id ≠ ".") (hid2 : toString id ≠ "..")
    (hq : normSegs q = q) (hv : fileAt fs q = some v) :
    getContentFileStream fs id (".." :: q) = some v ∧
    (pathExists fs [toString id] = true → ∀ data,
      (addContentFile fs id (".." :: ".." :: q) data).2 = .ok () ∧
      fileAt (addContentFile fs id (".." :: ".." :: q) data).1 q = some (.blob data)) := by
  constructor
  · show fileAt fs (normSegs (toString id :: ".." :: q)) = some v
    rw [normSegs_cons_up (toString id) hid1 hid2 q, hq, hv]
  · intro hex data
    have hfull : normSegs (toString id :: "content" :: ".." :: ".." :: q) = q := by
      rw [normSegs_content_upup (toString id) hid1 hid2 q, hq]
    constructor
    · simp [addContentFile, hex]
    · simp only [addContentFile, hex, if_pos]
      rw [hfull, fileAt_writeFile_same]

/-- C1 amended witness: the store of the counterexample, with the id 7
file streamed from id 42 and an attachment landing at the root. -/
theorem noPathValidation_witness :
    getContentFileStream ⟨[["7"], ["7", "content"], ["42"], ["42", "content"]],
        [(["7", "content", "x.png"], .blob [9, 9, 9])]⟩ 42
        (".." :: ["7", "content", "x.png"]) = some (.blob [9, 9, 9]) ∧
    (pathExists (⟨[["7"], ["7", "content"], ["42"], ["42", "content"]],
        [(["7", "content", "x.png"], .blob [9, 9, 9])]⟩ : FS) [toString 42] = true →
      ∀ data, (addContentFile ⟨[["7"], ["7", "content"], ["42"], ["42", "content"]],
          [(["7", "content", "x.png"], .blob [9, 9, 9])]⟩ 42
          (".." :: ".." :: ["7", "content", "x.png"]) data).2 = .ok () ∧
        fileAt (addContentFile ⟨[["7"], ["7", "content"], ["42"], ["42", "content"]],
          [(["7", "content", "x.png"], .blob [9, 9, 9])]⟩ 42
          (".." :: ".." :: ["7", "content", "x.png"]) data).1
          ["7", "content", "x.png"] = some (.blob data)) :=
  noPathValidation ⟨[["7"], ["7", "content"], ["42"], ["42", "content"]],
      [(["7", "content", "x.png"], .blob [9, 9, 9])]⟩ 42
      ["7", "content", "x.png"] (.blob [9, 9, 9])
      (by decide) (by decide) (by decide) (by decide)

-- C4 ---------------------------------------------------------------

/-- C4 counterexample: after creating id 42 and attaching ten bytes at
`images/a.png`, the listing is exactly that relative path, but
streaming the very same relative path yields nothing — the file sits
at `42/content/images/a.png` while the stream reads `42/images/a.png`. -/
theorem roundTrip_cex :
    getContentFiles c4Attached 42 = [["images", "a.png"]] ∧
    getContentFileStream c4Attached 42 ["images", "a.png"] = none := by
  decide

/-- C4 amended: the round trip holds once the streamed path carries
the `content/` prefix: for every attached relative path and data, when
the id exists the attach succeeds and streaming `content/<path>` from
the same id yields exactly that data; in the concrete scenario,
`getContentFiles 42 = [images/a.png]` and streaming
`content/images/a.png` yields the ten bytes. -/
theorem roundTrip_contentPrefix (fs : FS) (id : Nat) (fn : List String) (data : List Nat)
    (h : pathExists fs [toString id] = true) :
    (addContentFile fs id fn data).2 = .ok () ∧
    getContentFileStream (addContentFile fs id fn data).1 id ("content" :: fn) =
      some (.blob data) ∧
    getContentFiles c4Attached 42 = [["images", "a.png"]] ∧
    getContentFileStream c4Attached 42 ["content", "images", "a.png"] =
      some (.blob bytes10) := by
  refine ⟨by simp [addContentFile, h], ?_, by decide, by decide⟩
  show fileAt (addContentFile fs id fn data).1
      (normSegs (toString id :: "content" :: fn)) = some (.blob data)
  simp only [addContentFile, h, if_pos]
  exact fileAt_writeFile_same _ _ _

/-- C4 amended witness: the scenario itself, built from the empty
store. -/
theorem roundTrip_contentPrefix_witness :
    (addContentFile c4Created 42 ["images", "a.png"] bytes10).2 = .ok () ∧
    getContentFileStream (addContentFile c4Created 42 ["images", "a.png"] bytes10).1 42
      ("content" :: ["images", "a.png"]) = some (.blob bytes10) ∧
    getContentFiles c4Attached 42 = [["images", "a.png"]] ∧
    getContentFileStream c4Attached 42 ["content", "images", "a.png"] =
      some (.blob bytes10) :=
  roundTrip_contentPrefix c4Created 42 ["images", "a.png"] bytes10 (by decide)

-- C2 ---------------------------------------------------------------

/-- With a fault in the try block and no fault on the rollback, the
run ends in the catch block: final state a recursive removal of the id
directory, error the wrapped creation error. -/
theorem createContent_fault_shape (fs : FS) (id m c : Nat) (d1 d2 me co : Bool)
    (hf : (d1 || d2 || me || co) = true) :
    ∃ g op, createContent fs id m c ⟨d1, d2, me, co, false⟩ =
      (removeRec g [toString id], .error (.creation op)) := by
  cases d1
  · cases d2
    · cases me
      · cases co
        · simp at hf
        · exact ⟨_, _, rfl⟩
      · exact ⟨_, _, rfl⟩
    · exact ⟨_, _, rfl⟩
  · exact ⟨_, _, rfl⟩

/-- A run with no fault in the try block never reaches the catch
block, whatever the rollback flag. -/
theorem createContent_clean_eq (fs : FS) (id m c : Nat) (rm : Bool) :
    createContent fs id m c ⟨false, false, false, false, rm⟩ =
      (writeFile (writeFile (ensureDir (ensureDir fs [toString id])
        [toString id, "content"]) [toString id, "h5p.json"] (.doc m))
        [toString id, "content", "content.json"] (.doc c), .ok id) := rfl

/-- After the clean run, the id directory is present. -/
theorem pathExists_after_clean (fs : FS) (id m c : Nat) (rm : Bool) :
    pathExists (createContent fs id m c ⟨false, false, false, false, rm⟩).1
      [toString id] = true := by
  rw [createContent_clean_eq]
  simp [pathExists, writeFile, ensureDir, ancestors_one, ancestors_two]

/-- C2: with the rollback `remove` not itself faulting, `createContent`
is all-or-nothing: if any of the two `ensureDir` or two `writeJSON`
calls fails, the call errors with the wrapped creation error and the
id subdirectory does not exist in the resulting state; with no fault,
it returns the id and the directory, the metadata document and the
content document are all present. -/
theorem createContent_allOrNothing (fs : FS) (id m c : Nat) (f : CreateFaults)
    (hclean : f.fRemove = false) :
    ((f.fDir1 || f.fDir2 || f.fMeta || f.fContent) = true →
      (∃ op, (createContent fs id m c f).2 = .error (.creation op)) ∧
      pathExists (createContent fs id m c f).1 [toString id] = false) ∧
    ((f.fDir1 || f.fDir2 || f.fMeta || f.fContent) = false →
      (createContent fs id m c f).2 = .ok id ∧
      pathExists (createContent fs id m c f).1 [toString id] = true ∧
      fileAt (createContent fs id m c f).1 [toString id, "h5p.json"] = some (.doc m) ∧
      fileAt (createContent fs id m c f).1 [toString id, "content", "content.json"] =
        some (.doc c)) := by
  obtain ⟨d1, d2, me, co, rm⟩ := f
  cases rm
  · refine ⟨fun hf => ?_, fun hnf => ?_⟩
    · obtain ⟨g, op, hshape⟩ := createContent_fault_shape fs id m c d1 d2 me co hf
      rw [hshape]
      exact ⟨⟨op, rfl⟩, pathExists_removeRec_self g [toString id]⟩
    · have h1 : d1 = false := by
        cases d1 <;> simp_all
      have h2 : d2 = false := by
        cases d2 <;> simp_all
      have h3 : me = false := by
        cases me <;> simp_all
      have h4 : co = false := by
        cases co <;> simp_all
      subst h1; subst h2; subst h3; subst h4
      refine ⟨by rw [createContent_clean_eq], pathExists_after_clean fs id m c false, ?_, ?_⟩
      · rw [createContent_clean_eq]
        show fileAt (writeFile (writeFile _ _ _) _ _) _ = _
        rw [fileAt_writeFile_other _ _ _ _ (by simp), fileAt_writeFile_same]
      · rw [createContent_clean_eq]
        exact fileAt_writeFile_same _ _ _
  · exact Bool.noConfusion hclean

/-- C2 witness: a fault on the metadata write in the empty store rolls
the id 3 directory back; the clean run creates everything. -/
theorem createContent_allOrNothing_witness :
    ((∃ op, (createContent emptyFS 3 1 2 ⟨false, false, true, false, false⟩).2 =
        .error (.creation op)) ∧
      pathExists (createContent emptyFS 3 1 2 ⟨false, false, true, false, false⟩).1
        [toString 3] = false) ∧
    ((createContent emptyFS 3 1 2 noFaults).2 = .ok 3 ∧
      pathExists (createContent emptyFS 3 1 2 noFaults).1 [toString 3] = true ∧
      fileAt (createContent emptyFS 3 1 2 noFaults).1 [toString 3, "h5p.json"] =
        some (.doc 1) ∧
      fileAt (createContent emptyFS 3 1 2 noFaults).1
        [toString 3, "content", "content.json"] = some (.doc 2)) :=
  ⟨(createContent_allOrNothing emptyFS 3 1 2 ⟨false, false, true, false, false⟩
      (by decide)).1 (by decide),
    (createContent_allOrNothing emptyFS 3 1 2 noFaults (by decide)).2 (by decide)⟩

-- C7 ---------------------------------------------------------------

/-- C7 counterexample: metadata write fault plus rollback fault on the
empty store — the caller observes the raw rejection of the cleanup
`remove`, not the wrapped creation error of the failed write. -/
theorem rollbackMasking_cex :
    (createContent emptyFS 1 0 0 ⟨false, false, true, false, true⟩).2 =
      .error (.ioFault "remove") ∧
    (createContent emptyFS 1 0 0 ⟨false, false, true, false, true⟩).2 ≠
      .error (.creation "writeJSON h5p.json") := by
  decide

/-- C7 amended: when a create-sequence fault is followed by a cleanup
fault, the error that reaches the caller is the cleanup error — the
rejection of `remove` propagates out of the catch block before the
wrapping rethrow runs, masking the original creation error. -/
theorem rollback_fault_masks (fs : FS) (id m c : Nat) (f : CreateFaults)
    (hfault : (f.fDir1 || f.fDir2 || f.fMeta || f.fContent) = true)
    (hrm : f.fRemove = true) :
    (createContent fs id m c f).2 = .error (.ioFault "remove") := by
  obtain ⟨d1, d2, me, co, rm⟩ := f
  cases rm
  · simp at hrm
  · cases d1 <;> cases d2 <;> cases me <;> cases co <;>
      simp_all [createContent, rollbackAnd]

/-- C7 amended witness: the configuration of the counterexample. -/
theorem rollback_fault_masks_witness :
    (createContent emptyFS 1 0 0 ⟨false, false, true, false, true⟩).2 =
      .error (.ioFault "remove") :=
  rollback_fault_masks emptyFS 1 0 0 ⟨false, false, true, false, true⟩
    (by decide) (by decide)

-- C8 ---------------------------------------------------------------

/-- C8: a successful `createContent` leaves `contentExists` true; on
an existing id `deleteContent` succeeds and leaves `contentExists`
false; on a non-existing id `deleteContent` fails with the not-found
error and changes nothing. -/
theorem contentExists_lifecycle (fs : FS) (id m c : Nat) (f : CreateFaults) :
    ((createContent fs id m c f).2 = .ok id →
      contentExists (createContent fs id m c f).1 id = true) ∧
    (contentExists fs id = true →
      (deleteContent fs id).2 = .ok () ∧
      contentExists (deleteContent fs id).1 id = false) ∧
    (contentExists fs id = false →
      (deleteContent fs id).2 = .error .notFound ∧ (deleteContent fs id).1 = fs) := by
  refine ⟨?_, fun h => ?_, fun h => ?_⟩
  · obtain ⟨d1, d2, me, co, rm⟩ := f
    intro hok
    cases d1 <;> cases d2 <;> cases me <;> cases co <;> cases rm <;>
      simp_all [createContent, rollbackAnd, contentExists, pathExists,
        ensureDir, writeFile, ancestors_one, ancestors_two]
  · rw [contentExists] at h
    refine ⟨by simp [deleteContent, h], ?_⟩
    simp only [deleteContent, h, if_pos]
    exact pathExists_removeRec_self fs [toString id]
  · rw [contentExists] at h
    exact ⟨by simp [deleteContent, h], by simp [deleteContent, h]⟩

/-- C8 witness: create id 42 in the empty store, delete it, and try a
delete on the empty store. -/
theorem contentExists_lifecycle_witness :
    contentExists c4Created 42 = true ∧
    ((deleteContent c4Created 42).2 = .ok () ∧
      contentExists (deleteContent c4Created 42).1 42 = false) ∧
    ((deleteContent emptyFS 42).2 = .error .notFound ∧
      (deleteContent emptyFS 42).1 = emptyFS) :=
  ⟨(contentExists_lifecycle emptyFS 42 7 8 noFaults).1 (by decide),
    (contentExists_lifecycle c4Created 42 7 8 noFaults).2.1 (by decide),
    (contentExists_lifecycle emptyFS 42 7 8 noFaults).2.2 (by decide)⟩

-- C10 --------------------------------------------------------------

/-- C10: a fault-free `createContent` on an id whose subdirectory
already exists succeeds, overwrites the metadata document and the
primary content document in place, and leaves every other file —
in particular every previously attached file of that id — unchanged. -/
theorem createContent_overwrite (fs : FS) (id m c : Nat)
    (hex : pathExists fs [toString id] = true) :
    (createContent fs id m c noFaults).2 = .ok id ∧
    fileAt (createContent fs id m c noFaults).1 [toString id, "h5p.json"] =
      some (.doc m) ∧
    fileAt (createContent fs id m c noFaults).1 [toString id, "content", "content.json"] =
      some (.doc c) ∧
    ∀ q, q ≠ [toString id, "h5p.json"] → q ≠ [toString id, "content", "content.json"] →
      fileAt (createContent fs id m c noFaults).1 q = fileAt fs q := by
  refine ⟨rfl, ?_, ?_, fun q hq1 hq2 => ?_⟩
  · show fileAt (writeFile (writeFile _ _ _) _ _) _ = _
    rw [fileAt_writeFile_other _ _ _ _ (by simp), fileAt_writeFile_same]
  · exact fileAt_writeFile_same _ _ _
  · show fileAt (writeFile (writeFile (ensureDir (ensureDir fs _) _) _ _) _ _) q = _
    rw [fileAt_writeFile_other _ _ _ _ hq2, fileAt_writeFile_other _ _ _ _ hq1,
      fileAt_ensureDir, fileAt_ensureDir]

/-- C10 witness: id 9 exists with one attached file, which survives
the renewed creation while both documents are overwritten. -/
theorem createContent_overwrite_witness :
    (createContent ⟨[["9"], ["9", "content"]],
        [(["9", "content", "old.png"], .blob [5])]⟩ 9 1 2 noFaults).2 = .ok 9 ∧
    fileAt (createContent ⟨[["9"], ["9", "content"]],
        [(["9", "content", "old.png"], .blob [5])]⟩ 9 1 2 noFaults).1
      [toString 9, "h5p.json"] = some (.doc 1) ∧
    fileAt (createContent ⟨[["9"], ["9", "content"]],
        [(["9", "content", "old.png"], .blob [5])]⟩ 9 1 2 noFaults).1
      ["9", "content", "old.png"] =
      fileAt (⟨[["9"], ["9", "content"]],
        [(["9", "content", "old.png"], .blob [5])]⟩ : FS) ["9", "content", "old.png"] :=
  ⟨(createContent_overwrite ⟨[["9"], ["9", "content"]],
      [(["9", "content", "old.png"], .blob [5])]⟩ 9 1 2 (by decide)).1,
    (createContent_overwrite ⟨[["9"], ["9", "content"]],
      [(["9", "content", "old.png"], .blob [5])]⟩ 9 1 2 (by decide)).2.1,
    (createContent_overwrite ⟨[["9"], ["9", "content"]],
      [(["9", "content", "old.png"], .blob [5])]⟩ 9 1 2 (by decide)).2.2.2
      ["9", "content", "old.png"] (by decide) (by decide)⟩

-- C3 ---------------------------------------------------------------

/-- When every draw in the window clashes, the loop runs out of fuel
with the counter advanced by exactly the fuel. -/
theorem tryIds_all_taken (ex : ℤ → Bool) (gen : Nat → ℤ) :
    ∀ fuel start, (∀ i, start ≤ i → i < start + fuel → ex (gen i) = true) →
      tryIds ex gen start fuel = (.error .idExhaustion, start + fuel) := by
  intro fuel
  induction fuel with
  | zero => intro start _; rfl
  | succ n ih =>
    intro start h
    have hs : ex (gen start) = true :=
      h start le_rfl (by omega)
    show (if ex (gen start) then tryIds ex gen (start + 1) n
      else (.ok (gen start), start + 1)) = _
    rw [hs, if_pos rfl, ih (start + 1) (fun i h1 h2 => h i (by omega) (by omega))]
    congr 1
    omega

/-- The loop stops at the first non-clashing draw and reports the
number of attempts made. -/
theorem tryIds_first_free (ex : ℤ → Bool) (gen : Nat → ℤ) :
    ∀ fuel start j, start ≤ j → j < start + fuel →
      (∀ i, start ≤ i → i < j → ex (gen i) = true) → ex (gen j) = false →
      tryIds ex gen start fuel = (.ok (gen j), j + 1) := by
  intro fuel
  induction fuel with
  | zero => intro start j h1 h2; omega
  | succ n ih =>
    intro start j h1 h2 hall hj
    show (if ex (gen start) then tryIds ex gen (start + 1) n
      else (.ok (gen start), start + 1)) = _
    by_cases hs : start = j
    · subst hs
      rw [hj]
      simp
    · have hst : ex (gen start) = true := hall start le_rfl (by omega)
      rw [hst, if_pos rfl]
      exact ih (start + 1) j (by omega) (by omega)
        (fun i hi1 hi2 => hall i (by omega) hi2) hj

/-- C3: each draw of `getRandomInt(1, 2 ** 32)` lies in [1, 2^32];
`createContentId` returns the first drawn id whose subdirectory does
not exist, using that many attempts, and fails with the exhaustion
error after exactly 5 attempts precisely when the first five draws all
clash with existing ids. -/
theorem createContentId_spec (fs : FS) (rs : Nat → ℚ)
    (hr : ∀ k, 0 ≤ rs k ∧ rs k < 1) :
    (∀ k, 1 ≤ getRandomInt 1 (2 ^ 32) (rs k) ∧
      getRandomInt 1 (2 ^ 32) (rs k) ≤ 2 ^ 32) ∧
    (∀ j, j < 5 → (∀ i, i < j → idTaken fs (getRandomInt 1 (2 ^ 32) (rs i)) = true) →
      idTaken fs (getRandomInt 1 (2 ^ 32) (rs j)) = false →
      createContentId (idTaken fs) (fun k => getRandomInt 1 (2 ^ 32) (rs k)) =
        (.ok (getRandomInt 1 (2 ^ 32) (rs j)), j + 1)) ∧
    ((∀ i, i < 5 → idTaken fs (getRandomInt 1 (2 ^ 32) (rs i)) = true) →
      createContentId (idTaken fs) (fun k => getRandomInt 1 (2 ^ 32) (rs k)) =
        (.error .idExhaustion, 5)) := by
  refine ⟨fun k => ?_, fun j hj hall hfree => ?_, fun hall => ?_⟩
  · obtain ⟨h0, h1⟩ := hr k
    unfold getRandomInt
    have harg : ((2 ^ 32 : ℤ) : ℚ) - ((1 : ℤ) : ℚ) + 1 = ((2 : ℚ) ^ 32) := by
      norm_num
    rw [harg]
    constructor
    · have : (0 : ℤ) ≤ ⌊rs k * (2 : ℚ) ^ 32⌋ :=
        Int.floor_nonneg.mpr (mul_nonneg h0 (by positivity))
      omega
    · have hlt : rs k * (2 : ℚ) ^ 32 < (2 : ℚ) ^ 32 :=
        mul_lt_of_lt_one_left (by positivity) h1
      have : ⌊rs k * (2 : ℚ) ^ 32⌋ < (2 : ℤ) ^ 32 := by
        rw [Int.floor_lt]
        push_cast
        exact hlt
      omega
  · exact tryIds_first_free (idTaken fs) _ 5 0 j (Nat.zero_le j) (by omega)
      (fun i _ hi => hall i hi) hfree
  · exact tryIds_all_taken (idTaken fs) _ 5 0 (fun i _ hi => hall i hi)

/-- C3 witness: a constant zero random source always draws id 1; with
id 1 existing, generation fails with the exhaustion error after
exactly 5 attempts. -/
theorem createContentId_spec_witness :
    createContentId (idTaken ⟨[["1"]], []⟩)
      (fun k => getRandomInt 1 (2 ^ 32) ((fun _ => (0 : ℚ)) k)) =
      (.error .idExhaustion, 5) := by
  refine (createContentId_spec ⟨[["1"]], []⟩ (fun _ => (0 : ℚ))
    (fun k => by norm_num)).2.2 (fun i _ => ?_)
  have h1 : getRandomInt 1 (2 ^ 32) ((fun _ => (0 : ℚ)) i) = 1 := by
    norm_num [getRandomInt]
  rw [h1]
  decide

-- C5 ---------------------------------------------------------------

/-- C5 counterexample: a leaf file named `README` (no dot in its name)
stored under the file area of id 42 is not the reserved content
document, yet `getContentFiles` omits it — the glob `**/*.*` only
matches names containing a dot. -/
theorem listing_misses_extensionless_cex :
    fileAt ⟨[["42"], ["42", "content"]], [(["42", "content", "README"], .blob [1])]⟩
      ["42", "content", "README"] = some (.blob [1]) ∧
    (["42", "content", "README"] : Path) ≠ ["42", "content", "content.json"] ∧
    getContentFiles ⟨[["42"], ["42", "content"]],
      [(["42", "content", "README"], .blob [1])]⟩ 42 = [] := by
  decide

/-- C5 amended: `getContentFiles` returns exactly the files under the
file area whose relative path matches the `**/*.*` glob with its
default dot handling (no segment starting with a dot, basename
containing a dot), each as a path relative to the file area, with the
reserved `content.json` excluded; in particular the primary content
document path never appears. -/
theorem getContentFiles_spec (fs : FS) (id : Nat) (rel : Path) :
    (rel ∈ getContentFiles fs id ↔
      ([toString id, "content"] ++ rel) ∈ fs.files.map Prod.fst ∧
        globOk rel = true ∧ rel ≠ ["content.json"]) ∧
    ["content.json"] ∉ getContentFiles fs id := by
  have main : ∀ r : Path, r ∈ getContentFiles fs id ↔
      ([toString id, "content"] ++ r) ∈ fs.files.map Prod.fst ∧
        globOk r = true ∧ r ≠ ["content.json"] := by
    intro r
    unfold getContentFiles
    rw [List.mem_filterMap]
    constructor
    · rintro ⟨e, he, hf⟩
      by_cases hcond : isPref [toString id, "content"] e.1 = true ∧
          e.1 ≠ [toString id, "content", "content.json"] ∧ globOk (e.1.drop 2) = true
      · rw [if_pos hcond] at hf
        injection hf with hdrop
        obtain ⟨t, ht⟩ := (isPref_two_iff _ _ e.1).1 hcond.1
        have htr : t = r := by
          rw [ht] at hdrop
          exact hdrop
        refine ⟨?_, ?_, ?_⟩
        · rw [List.mem_map]
          exact ⟨e, he, by rw [ht, htr]; rfl⟩
        · have hg := hcond.2.2
          rw [ht] at hg
          rw [← htr]
          exact hg
        · intro hrc
          exact hcond.2.1 (by rw [ht, htr, hrc])
      · rw [if_neg hcond] at hf
        exact absurd hf (by simp)
    · rintro ⟨hmem, hglob, hne⟩
      rw [List.mem_map] at hmem
      obtain ⟨e, he, hfst⟩ := hmem
      have he1 : e.1 = toString id :: "content" :: r := hfst
      refine ⟨e, he, ?_⟩
      have hcond : isPref [toString id, "content"] e.1 = true ∧
          e.1 ≠ [toString id, "content", "content.json"] ∧ globOk (e.1.drop 2) = true := by
        refine ⟨(isPref_two_iff _ _ e.1).2 ⟨r, he1⟩, ?_, ?_⟩
        · rw [he1]
          intro hcontra
          injection hcontra with h1 hcontra
          injection hcontra with h2 hcontra
          exact hne hcontra
        · rw [he1]
          exact hglob
      rw [if_pos hcond, he1]
      rfl
  refine ⟨main rel, fun hmem => ?_⟩
  exact ((main ["content.json"]).1 hmem).2.2 rfl

end CStore
